import Mathlib

/-!
Verification development for the agent execution and orchestration engine
of the `cue` repository: a shallow embedding in Lean 4 of the per-agent
completion loop, the concurrent tool dispatcher, the multi-agent handoff
protocol and the turn/depth budget machinery, together with theorems about
the properties stated in the specification.

Each definition carries a comment naming the Python source location it
embeds.  Concurrency is modelled by an explicit outcome oracle: every
scheduled unit of work is identified by its position in the input batch,
and the oracle assigns it the outcome (value, timeout, or raised
exception) that awaiting it would observe.  Python exceptions escaping a
modelled function are represented with `Except`.
-/

namespace Cue

/-! ## Shared basics -/

/-- A normalized tool-invocation request.  Both provider shapes
(`ToolCall` with `function.name` / `id`, and `ToolUseContent` with
`name` / `id`, see `src/cue/_agent.py` lines 103-113) normalize to a
name and a correlation id; the argument payload is irrelevant to the
claims and is absorbed by the execution-outcome oracle. -/
structure ToolCallReq where
  id : String
  name : String
  deriving DecidableEq, Repr

/-- `idxFrom n l` pairs every element of `l` with its position counted
from `n`.  Positions serve as task identities for the outcome oracles. -/
def idxFrom {α : Type} (n : Nat) : List α → List (Nat × α)
  | [] => []
  | a :: as => (n, a) :: idxFrom (n + 1) as

/-- Association-list lookup, modelling Python `dict` indexing
(`d[key]`, `key in d`, `d.get(key)`). -/
def lookupA {α : Type} : List (String × α) → String → Option α
  | [], _ => none
  | (k, v) :: rest, key => if k = key then some v else lookupA rest key

/-- Association-list update of an existing key, modelling mutation of the
object stored under the key in a Python `dict`. -/
def updateA {α : Type} : List (String × α) → String → α → List (String × α)
  | [], _, _ => []
  | (k, v) :: rest, key, w => if k = key then (k, w) :: rest else (k, v) :: updateA rest key w

/-! ## Tool Dispatcher (`Agent.process_tools_with_timeout`, `src/cue/_agent.py` lines 97-146) -/

/-- Outcome observed when awaiting one scheduled tool task
(`asyncio.wait_for(task, timeout=timeout)`, `src/cue/_agent.py` lines 128-137):
the task returns a value (modelled already stringified), times out, or
raises. -/
inductive ExecOutcome where
  | success (value : String)
  | timeout
  | exn (message : String)
  deriving DecidableEq, Repr

/-- One reply per invocation.  `toolMessage` embeds the OpenAI-shape
`ToolMessage(tool_call_id, name, role="tool", content)`; `toolResultContent`
embeds the Anthropic-shape `ToolResultContent(tool_use_id, content, is_error)`
(`src/cue/_agent.py` lines 155-165). -/
inductive ToolResponseMsg where
  | toolMessage (tool_call_id : String) (name : String) (content : String)
  | toolResultContent (tool_use_id : String) (content : String) (is_error : Bool)
  deriving DecidableEq, Repr

/-- The correlation id carried by a reply. -/
def toolMsgId : ToolResponseMsg → String
  | .toolMessage i _ _ => i
  | .toolResultContent i _ _ => i

/-- Python `"claude" in self.config.model.id` (substring test). -/
def modelIsClaude (modelId : String) : Bool :=
  decide ("claude".toList <:+: modelId.toList)

/-- `Agent.create_success_response` (`src/cue/_agent.py` lines 155-159). -/
def createSuccessResponse (modelId tool_id tool_name content : String) : ToolResponseMsg :=
  if modelIsClaude modelId then .toolResultContent tool_id content false
  else .toolMessage tool_id tool_name content

/-- `Agent.create_error_response` (`src/cue/_agent.py` lines 161-165). -/
def createErrorResponse (modelId tool_id tool_name error_message : String) : ToolResponseMsg :=
  if modelIsClaude modelId then .toolResultContent tool_id error_message true
  else .toolMessage tool_id tool_name error_message

/-- The reserved orchestration capability names of
`src/cue/_agent.py` line 115. -/
def reservedToolNames : List String := ["call_agent", "transfer_to_agent"]

/-- The not-found error text of `src/cue/_agent.py` line 116:
`f"Tool '{tool_name}' not found. {self.tool_manager.tools.keys()}"`,
with `dict_keys([...])` being how Python renders the registry view. -/
def toolNotFoundMsg (tools : List String) (name : String) : String :=
  "Tool \x27" ++ name ++ "\x27 not found. dict_keys([" ++
    String.intercalate ", " (tools.map (fun n => "\x27" ++ n ++ "\x27")) ++ "])"

/-- The timeout error text of `src/cue/_agent.py` line 133. -/
def timeoutMsg (name : String) (timeout : Nat) : String :=
  "Timeout while calling tool <" ++ name ++ "> after " ++ toString timeout ++ "s."

/-- The tool-exception error text of `src/cue/_agent.py` line 136. -/
def execErrorMsg (name message : String) : String :=
  "Error while calling tool <" ++ name ++ ">: " ++ message

/-- Exceptions the dispatcher can let escape. `keyError` models the
`self.tool_manager.tools[tool_name]` lookup on line 124 failing (reserved
name `call_agent` that is not registered); `wrapperTypeError` models line
142, `ToolResponseWrapper(tool_result_message == tool_result_message)`,
which passes a positional `bool` to a pydantic model and raises. -/
inductive DispatchExn where
  | keyError (name : String)
  | wrapperTypeError
  deriving DecidableEq, Repr

/-- The guard of `src/cue/_agent.py` line 115: the requested name is
neither registered nor reserved. -/
def isUnknownTool (tools : List String) (c : ToolCallReq) : Bool :=
  decide (c.name ∉ tools) && decide (c.name ∉ reservedToolNames)

/-- First `for` loop of `process_tools_with_timeout`
(`src/cue/_agent.py` lines 103-126) over the batch paired with task
positions: unknown names append an error reply immediately; the rest are
scheduled as tasks (`transfer_to_agent` resolves to the agent manager,
every other surviving name is looked up in `tool_manager.tools`, where an
unregistered `call_agent` raises `KeyError`).  Returns the replies
accumulated by this loop together with the scheduled tasks. -/
def dispatchPass1 (modelId : String) (tools : List String) :
    List (Nat × ToolCallReq) → Except DispatchExn (List ToolResponseMsg × List (Nat × ToolCallReq))
  | [] => .ok ([], [])
  | (i, c) :: rest =>
    if isUnknownTool tools c then
      match dispatchPass1 modelId tools rest with
      | .ok (errs, tasks) =>
          .ok (createErrorResponse modelId c.id c.name (toolNotFoundMsg tools c.name) :: errs, tasks)
      | .error e => .error e
    else if c.name = "transfer_to_agent" then
      match dispatchPass1 modelId tools rest with
      | .ok (errs, tasks) => .ok (errs, (i, c) :: tasks)
      | .error e => .error e
    else if c.name ∈ tools then
      match dispatchPass1 modelId tools rest with
      | .ok (errs, tasks) => .ok (errs, (i, c) :: tasks)
      | .error e => .error e
    else
      .error (.keyError c.name)

/-- Reply produced for one awaited task by the second `for` loop
(`src/cue/_agent.py` lines 128-137). -/
def taskResult (modelId : String) (exec : Nat → ExecOutcome) (timeout : Nat)
    (p : Nat × ToolCallReq) : ToolResponseMsg :=
  match exec p.1 with
  | .success v => createSuccessResponse modelId p.2.id p.2.name v
  | .timeout => createErrorResponse modelId p.2.id p.2.name (timeoutMsg p.2.name timeout)
  | .exn m => createErrorResponse modelId p.2.id p.2.name (execErrorMsg p.2.name m)

/-- Second `for` loop of `process_tools_with_timeout`
(`src/cue/_agent.py` lines 128-137): tasks are awaited in scheduling
order, each appending its reply. -/
def dispatchPass2 (modelId : String) (exec : Nat → ExecOutcome) (timeout : Nat)
    (tasks : List (Nat × ToolCallReq)) : List ToolResponseMsg :=
  tasks.map (taskResult modelId exec timeout)

/-- `Agent.process_tools_with_timeout` (`src/cue/_agent.py` lines 97-146).
The `tool_responses` list is the first-pass replies followed by the
awaited-task replies.  For a model id containing `"claude"` the wrapper
construction on line 142 raises (`wrapperTypeError`); otherwise the reply
list is returned (wrapped as `ToolResponseWrapper(tool_messages=...)` in
the source, line 144). -/
def processToolsWithTimeout (modelId : String) (tools : List String)
    (exec : Nat → ExecOutcome) (timeout : Nat) (tool_calls : List ToolCallReq) :
    Except DispatchExn (List ToolResponseMsg) :=
  match dispatchPass1 modelId tools (idxFrom 0 tool_calls) with
  | .error e => .error e
  | .ok (errs, tasks) =>
    if modelIsClaude modelId then .error .wrapperTypeError
    else .ok (errs ++ dispatchPass2 modelId exec timeout tasks)

/-- A request name the dispatcher can resolve without raising: anything
except an unregistered `call_agent` (which hits the `KeyError` of line
124). -/
def resolvable (tools : List String) (c : ToolCallReq) : Prop :=
  ¬(c.name = "call_agent" ∧ c.name ∉ tools)

instance (tools : List String) (c : ToolCallReq) : Decidable (resolvable tools c) := by
  unfold resolvable
  infer_instance

/-! ## Orchestrator turn budget (`AgentManager`, `src/cue/_agent_manager.py`) -/

/-- The budget-relevant fields of `RunMetadata`
(`src/cue/schemas/run_metadata.py`): `max_turns` (default 6) and
`enable_turn_debug`. -/
structure RunMetadataM where
  max_turns : Nat
  enable_turn_debug : Bool
  deriving DecidableEq, Repr

/-- Python `str.lower()` restricted to what the prompts compare against
(ASCII case folding, character by character). -/
def pyLower (s : String) : String :=
  String.mk (s.data.map Char.toLower)

/-- Python `response.lower() in ["y", "yes", ""]`, the acceptance test of
both `input()` prompts in `AgentManager.should_continue_run`
(`src/cue/_agent_manager.py` lines 163 and 173). -/
def isYesAnswer (s : String) : Bool :=
  pyLower s = "y" || pyLower s = "yes" || pyLower s = ""

/-- `AgentManager.should_continue_run` (`src/cue/_agent_manager.py` lines
148-177).  `is_test` is `self.active_agent.config.is_test`; the two
`input()` calls are modelled by the supplied answers (`debugAnswer` for
the per-turn debug prompt, `contAnswer` for the budget prompt). -/
def shouldContinueRun (turns_count : Nat) (md : RunMetadataM) (is_test : Bool)
    (debugAnswer contAnswer : String) : Bool :=
  if md.enable_turn_debug ∧ isYesAnswer debugAnswer = false then false
  else if md.max_turns ≤ turns_count then
    if is_test then false
    else if isYesAnswer contAnswer = false then false
    else true
  else true

/-- What one executed turn of `AgentManager._execute_run` does to the
loop: `terminal` models the `return response` of line 91 (plain response
from the primary agent); `continueRun` models every `continue` path
(error response, auto handoff, handoff result, ordinary tool results). -/
inductive TurnOutcome where
  | terminal
  | continueRun
  deriving DecidableEq, Repr

/-- The outer `while True` loop of `AgentManager._execute_run`
(`src/cue/_agent_manager.py` lines 64-127), restricted to its turn
bookkeeping.  `executed` counts turns that passed the
`should_continue_run` guard (each such turn runs the active agent once);
the loop counter `turns_count` equals `executed + 1` at the guard.
`is_test t`, `debugAns t`, `contAns t` and `outcome t` are the active
agent's test flag, the two prompt answers and the turn's effect when
`turns_count = t`.  `fuel` bounds the unrolling of the unbounded loop;
the returned value is the number of executed turns. -/
def execRunTurns (md : RunMetadataM) (is_test : Nat → Bool)
    (debugAns contAns : Nat → String) (outcome : Nat → TurnOutcome) :
    Nat → Nat → Nat
  | 0, executed => executed
  | fuel + 1, executed =>
    if shouldContinueRun (executed + 1) md (is_test (executed + 1))
        (debugAns (executed + 1)) (contAns (executed + 1)) = false then executed
    else
      match outcome (executed + 1) with
      | .terminal => executed + 1
      | .continueRun => execRunTurns md is_test debugAns contAns outcome fuel (executed + 1)

/-! ## Handoff Protocol (`AgentManager._handle_hand_off_result`,
`src/cue/_agent_manager.py` lines 129-146) -/

/-- Modelled from the spec: `ConversationContext` (its schema module is
not under `src/`) holds the participant set of agent ids scoping the
sub-conversation after a handoff (spec section 3, "Agent"); the source
constructs it as `ConversationContext(participants=[from, to])`. -/
structure ConversationContext where
  participants : List String
  deriving DecidableEq, Repr

/-- The carried context of a handoff: a single turn or an ordered list of
turns (spec section 3, `HandoffResult`); turn payloads are opaque
strings here. -/
inductive HandoffContext where
  | single (m : String)
  | multiple (ms : List String)
  deriving DecidableEq, Repr

/-- Modelled from the spec: `AgentHandoffResult` (its schema module is
not under `src/`) is the `HandoffResult` record
`{from_agent_id, to_agent_id, context}` of spec section 3. -/
structure AgentHandoffResult where
  from_agent_id : String
  to_agent_id : String
  context : HandoffContext
  deriving DecidableEq, Repr

/-- The per-agent runtime state touched by a handoff: the
`conversation_context` field and the message history the orchestrator
appends to via `add_message`. -/
structure AgentRt where
  conversation_context : ConversationContext
  messages : List String
  deriving DecidableEq, Repr

/-- The `AgentManager` state touched by a handoff: the `_agents` registry
(dict, as an association list) and the `active_agent` pointer (by id). -/
structure ManagerHandoffState where
  agents : List (String × AgentRt)
  active_agent : Option String
  deriving DecidableEq, Repr

/-- The turns carried by `hand_off_result.context`: a list is appended
message by message, anything else as a single message
(`src/cue/_agent_manager.py` lines 142-146). -/
def ctxMessages : HandoffContext → List String
  | .single m => [m]
  | .multiple ms => ms

/-- `AgentManager._handle_hand_off_result` (`src/cue/_agent_manager.py`
lines 129-146): set `active_agent` to the agent under `to_agent_id`
(dict indexing; `none` models the `KeyError` on an unregistered id),
overwrite that agent's `conversation_context` with
`ConversationContext(participants=[from_agent_id, to_agent_id])`, and
append the carried context to its history. -/
def handleHandoffResult (st : ManagerHandoffState) (r : AgentHandoffResult) :
    Option ManagerHandoffState :=
  match lookupA st.agents r.to_agent_id with
  | none => none
  | some ag =>
    let ag' : AgentRt :=
      { conversation_context := ⟨[r.from_agent_id, r.to_agent_id]⟩,
        messages := ag.messages ++ ctxMessages r.context }
    some { agents := updateA st.agents r.to_agent_id ag',
           active_agent := some r.to_agent_id }

/-! ## `CompletionResponse` (`src/cue/schemas/completion_respone.py`) -/

/-- Modelled from the spec: `ErrorResponse` (its schema module is not
under `src/`) is the typed transport error of spec section 6, with the
`message` and optional `code` fields the clients construct it with. -/
structure ErrorResponse where
  message : String
  code : Option String
  deriving DecidableEq, Repr

/-- One content block of an Anthropic `Message`: a `TextBlock` or a
`ToolUseBlock` (the fields the accessors read). -/
inductive AnthContent where
  | textBlock (text : String)
  | toolUseBlock (id : String) (name : String)
  deriving DecidableEq, Repr

/-- Token usage, as read by `CompletionResponse.get_usage`. -/
structure UsageM where
  input_tokens : Nat
  output_tokens : Nat
  deriving DecidableEq, Repr

/-- An Anthropic `Message` as far as the accessors look at it. -/
structure AnthMessageM where
  content : List AnthContent
  usage : UsageM
  deriving DecidableEq, Repr

/-- An OpenAI `ChatCompletion` as far as the accessors look at it:
`choices[0].message.content` (optional) and
`choices[0].message.tool_calls` (optional). -/
structure ChatCompletionM where
  content : Option String
  tool_calls : Option (List ToolCallReq)
  usage : UsageM
  deriving DecidableEq, Repr

/-- The two provider response shapes `CompletionResponse.response` can
hold. -/
inductive ProviderResponse where
  | anthropic (m : AnthMessageM)
  | chat (c : ChatCompletionM)
  deriving DecidableEq, Repr

/-- `CompletionResponse` (`src/cue/schemas/completion_respone.py` lines
48-61): a provider response or an error, plus the model id. -/
structure CompletionResponseM where
  model : String
  response : Option ProviderResponse
  error : Option ErrorResponse
  deriving DecidableEq, Repr

/-- The exception `InvalidResponseTypeError` raised by the accessors when
the response matches neither provider shape. -/
inductive PyExn where
  | invalidResponseType
  deriving DecidableEq, Repr

/-- Python `str()` of the `error` attribute (`str(self.error)` in
`get_text`): pydantic renders `message='...' code=...`, and `str(None)`
is `"None"`. -/
def pyStrOfError : Option ErrorResponse → String
  | none => "None"
  | some e =>
    "message=\x27" ++ e.message ++ "\x27 code=" ++
      (match e.code with
       | none => "None"
       | some c => "\x27" ++ c ++ "\x27")

/-- `CompletionResponse.get_text` (`src/cue/schemas/completion_respone.py`
lines 72-82).  `response is None` returns `str(self.error)`; the Anthropic
branch joins the text blocks with a newline; the chat branch returns
`choices[0].message.content`, which may be `None` (hence the
`Option String` payload); anything else raises. -/
def getText (r : CompletionResponseM) : Except PyExn (Option String) :=
  match r.response with
  | none => .ok (some (pyStrOfError r.error))
  | some (.anthropic m) =>
    .ok (some (String.intercalate "\n"
      (m.content.filterMap (fun b =>
        match b with
        | .textBlock t => some t
        | .toolUseBlock _ _ => none))))
  | some (.chat c) => .ok c.content

/-- `CompletionResponse.get_tool_calls`
(`src/cue/schemas/completion_respone.py` lines 84-96): the Anthropic
branch collects the `ToolUseBlock`s, the chat branch returns
`choices[0].message.tool_calls`, and with no response an `ErrorResponse`
error yields `None` while anything else raises
`InvalidResponseTypeError`. -/
def getToolCalls (r : CompletionResponseM) : Except PyExn (Option (List ToolCallReq)) :=
  match r.response with
  | some (.anthropic m) =>
    .ok (some (m.content.filterMap (fun b =>
      match b with
      | .textBlock _ => none
      | .toolUseBlock i n => some ⟨i, n⟩)))
  | some (.chat c) => .ok c.tool_calls
  | none =>
    match r.error with
    | some _ => .ok none
    | none => .error .invalidResponseType

/-- `CompletionResponse.get_usage` (`src/cue/schemas/completion_respone.py`
lines 98-115): `response is None` returns `None`; either provider shape
yields its usage. -/
def getUsage (r : CompletionResponseM) : Except PyExn (Option UsageM) :=
  match r.response with
  | none => .ok none
  | some (.anthropic m) => .ok (some m.usage)
  | some (.chat c) => .ok (some c.usage)

/-! ## Anthropic transport boundary
(`AnthropicClient.send_completion_request`, `src/cue/llm/anthropic_client.py`
lines 38-127) -/

/-- Outcome of the `messages.create` call inside the `try` block: a
provider message, or one of the three caught transport exception classes
(`anthropic.APIConnectionError`, `anthropic.RateLimitError`,
`anthropic.APIStatusError`). -/
inductive AnthTransportOutcome where
  | success (m : AnthMessageM)
  | apiConnectionError (cause : String)
  | rateLimitError (body : String) (status : String)
  | apiStatusError (status : String) (body : String)
  deriving DecidableEq, Repr

/-- The three transport-level failures of the claim taxonomy: connection
failure, rate limit, non-2xx status. -/
def isTransportError : AnthTransportOutcome → Bool
  | .success _ => false
  | .apiConnectionError _ => true
  | .rateLimitError _ _ => true
  | .apiStatusError _ _ => true

/-- `AnthropicClient.send_completion_request`
(`src/cue/llm/anthropic_client.py` lines 38-127): each caught transport
exception is wrapped into an `ErrorResponse` with the messages of lines
109-122, and the function returns
`CompletionResponse(response=..., error=error)` — the error leaves as
data, not as an exception.  (The tool-call id regeneration of
`replace_tool_call_ids` does not affect any claim and is left out.) -/
def anthropicSendCompletionRequest (model : String) (outcome : AnthTransportOutcome) :
    CompletionResponseM :=
  match outcome with
  | .success m => ⟨model, some (.anthropic m), none⟩
  | .apiConnectionError cause =>
    ⟨model, none, some ⟨"The server could not be reached. " ++ cause, none⟩⟩
  | .rateLimitError body status =>
    ⟨model, none,
     some ⟨"A 429 status code was received; we should back off a bit. " ++ body, some status⟩⟩
  | .apiStatusError status body =>
    ⟨model, none,
     some ⟨"Another non-200-range status code was received. " ++ status ++ ", " ++ body,
           some status⟩⟩

/-- Modelled from the spec: `Agent.run` (the version of `_agent.py` under
`src/` exposes `send_messages`; the orchestrator's entry point is absent)
performs one completion round-trip and hands the transport's
`CompletionResponse` back to the orchestrator unchanged (spec section 4.1
steps 2-3). -/
def agentRunResult (transportResult : CompletionResponseM) : CompletionResponseM :=
  transportResult

/-- History entries appended by the orchestrator loop. -/
inductive RunHistEntry where
  | assistantResponse (r : CompletionResponseM)
  | toolResults (msgs : List ToolResponseMsg)
  | userMessage (content : String)
  deriving DecidableEq, Repr

/-- What one guard-passing iteration of `AgentManager._execute_run` does
with the completion response it received. -/
inductive StepResult where
  | returned (resp : CompletionResponseM)
  | autoHandoff (text : Option String)
  | dispatchTools (tcs : List ToolCallReq)
  | raisedExn (e : PyExn)
  deriving DecidableEq, Repr

/-- The response-handling part of one `AgentManager._execute_run`
iteration (`src/cue/_agent_manager.py` lines 72-102).  The response is a
`CompletionResponse`, so the `not isinstance` block (lines 75-85) is
skipped and line 87 appends the response to the active agent's history.
Then `get_tool_calls` decides: a falsy result (`None` or `[]`) returns
the response when the active agent is primary and auto-handoffs
otherwise; tool calls go to the dispatcher.  An exception from
`get_tool_calls` escapes (`raisedExn`). -/
def execRunStep (history : List RunHistEntry) (resp : CompletionResponseM)
    (is_primary : Bool) : StepResult × List RunHistEntry :=
  let history' := history ++ [RunHistEntry.assistantResponse resp]
  match getToolCalls resp with
  | .error e => (.raisedExn e, history')
  | .ok tcs =>
    if tcs = none ∨ tcs = some [] then
      if is_primary then (.returned resp, history')
      else (.autoHandoff (getText resp).toOption.join, history')
    else (.dispatchTools (tcs.getD []), history')

/-! ## Single-agent completion loop with depth budget
(`OpenAIClient.send_completion_request`, `src/cue/llm/openai_client.py`
lines 104-139; the legacy twin is `src/chat_completion.py` lines 15-49) -/

/-- The depth bookkeeping of `Metadata`
(`src/cue/schemas/request_metadata.py`). -/
structure MetadataM where
  current_depth : Nat
  total_depth : Nat
  max_depth : Nat
  request_count : Nat
  deriving DecidableEq, Repr

/-- Python `response.lower() in ["y", "yes"]`, the acceptance test of the
depth-limit prompt (`src/cue/llm/openai_client.py` line 116); note that
unlike the turn prompt it does not accept the empty string. -/
def isYesStrict (s : String) : Bool :=
  pyLower s = "y" || pyLower s = "yes"

/-- Outcome of one `_send_completion_request` round-trip: an
`ErrorResponse` (every transport exception is caught and returned as
data, lines 85-102) or a completion carrying optional tool calls. -/
inductive ChatOutcome where
  | errorResp (e : ErrorResponse)
  | completion (tool_calls : Option (List ToolCallReq))
  deriving DecidableEq, Repr

/-- What the loop hands back to its caller. -/
inductive SendResult where
  | noneSentinel
  | errorResult (e : ErrorResponse)
  | completionResult (tool_calls : Option (List ToolCallReq))
  | outOfFuel
  deriving DecidableEq, Repr

/-- `OpenAIClient.send_completion_request`
(`src/cue/llm/openai_client.py` lines 104-139).  On entry, if
`current_depth >= max_depth` the continuation prompt is asked: a
non-accepting answer returns `None` (the suspension sentinel); an
accepting answer sets `current_depth = 0`.  Then one round-trip runs: an
`ErrorResponse` is returned immediately (before any counter changes);
otherwise `current_depth`, `total_depth` and `request_count` are each
incremented, a tool-call-free completion is returned, and tool calls lead
to dispatch and recursion.  `transport k` and `ans k` are the round-trip
outcome and prompt answer of the `k`-th recursive invocation; `fuel`
bounds the recursion. -/
def openaiSendCompletionRequest (transport : Nat → ChatOutcome) (ans : Nat → String) :
    Nat → Nat → MetadataM → SendResult × MetadataM
  | 0, _, md => (.outOfFuel, md)
  | fuel + 1, step, md =>
    if md.max_depth ≤ md.current_depth ∧ isYesStrict (ans step) = false then
      (.noneSentinel, md)
    else
      let md1 : MetadataM :=
        if md.max_depth ≤ md.current_depth then { md with current_depth := 0 } else md
      match transport step with
      | .errorResp e => (.errorResult e, md1)
      | .completion tcs =>
        let md2 : MetadataM :=
          { md1 with current_depth := md1.current_depth + 1,
                     total_depth := md1.total_depth + 1,
                     request_count := md1.request_count + 1 }
        match tcs with
        | none => (.completionResult none, md2)
        | some _ => openaiSendCompletionRequest transport ans fuel (step + 1) md2

/-! ## Legacy single-agent tool loop (`process_tool_calls`,
`src/chat_completion.py` lines 52-76) -/

/-- Outcome of calling one capability in the legacy loop: a returned
value (already stringified) or a raised exception.  An unregistered name
is also a raise: `tools_manager.tools.get(name)` yields `None` and
calling `None` raises `TypeError`, caught by the same handler. -/
inductive LegacyOutcome where
  | returns (value : String)
  | raises (message : String)
  deriving DecidableEq, Repr

/-- The body of one legacy loop iteration (`src/chat_completion.py` lines
55-75): a successful call appends a `ToolMessage`; the `except` branch
only builds a local error string and appends nothing. -/
def legacyEntry (tools : List String) (outcome : Nat → LegacyOutcome)
    (p : Nat × ToolCallReq) : Option ToolResponseMsg :=
  if p.2.name ∈ tools then
    match outcome p.1 with
    | .returns v => some (.toolMessage p.2.id p.2.name v)
    | .raises _ => none
  else none

/-- `process_tool_calls` (`src/chat_completion.py` lines 52-76): iterate
the batch in order, keeping only the replies of invocations that neither
raised nor were unregistered. -/
def processToolCalls (tools : List String) (outcome : Nat → LegacyOutcome)
    (tool_calls : List ToolCallReq) : List ToolResponseMsg :=
  (idxFrom 0 tool_calls).filterMap (legacyEntry tools outcome)

/-! ## Agent registry (`AgentManager.register_agent`,
`src/cue/_agent_manager.py` lines 200-212) -/

/-- Modelled from the spec: `AgentConfig` (its schema module is not under
`src/`) with the fields `register_agent` and the orchestrator read (spec
section 3). -/
structure AgentConfigM where
  id : String
  name : String
  is_primary : Bool
  is_test : Bool
  deriving DecidableEq, Repr

/-- An `Agent` as constructed by `Agent.__init__`
(`src/cue/_agent.py` lines 19-28): `self.id = config.id` and the config
itself (runtime collaborators are irrelevant to registration). -/
structure AgentObj where
  id : String
  config : AgentConfigM
  deriving DecidableEq, Repr

/-- The `AgentManager` state touched by registration: the `_agents` dict
(association list in insertion order) and the `primary_agent` pointer. -/
structure RegistryState where
  agents : List (String × AgentObj)
  primary_agent : Option AgentObj
  deriving DecidableEq, Repr

/-- `AgentManager.register_agent` (`src/cue/_agent_manager.py` lines
200-212): an already-present `config.id` returns the existing agent and
changes nothing; otherwise a new `Agent` is constructed, stored under
`config.id`, and `primary_agent` is updated when `config.is_primary`. -/
def registerAgent (st : RegistryState) (config : AgentConfigM) : AgentObj × RegistryState :=
  match lookupA st.agents config.id with
  | some existing => (existing, st)
  | none =>
    let agent : AgentObj := ⟨config.id, config⟩
    (agent,
     { agents := st.agents ++ [(config.id, agent)],
       primary_agent := if config.is_primary then some agent else st.primary_agent })

/-! ## Helper lemmas -/

theorem idxFrom_map_snd {α : Type} (n : Nat) (l : List α) :
    (idxFrom n l).map Prod.snd = l := by
  induction l generalizing n with
  | nil => rfl
  | cons a as ih => simp [idxFrom, ih]

theorem idxFrom_length {α : Type} (n : Nat) (l : List α) :
    (idxFrom n l).length = l.length := by
  induction l generalizing n with
  | nil => rfl
  | cons a as ih => simp [idxFrom, ih]

theorem mem_idxFrom {α : Type} {n : Nat} {l : List α} {p : Nat × α}
    (hp : p ∈ idxFrom n l) :
    ∃ k, ∃ h : k < l.length, p.1 = n + k ∧ p.2 = l.get ⟨k, h⟩ := by
  induction l generalizing n with
  | nil => simp [idxFrom] at hp
  | cons a as ih =>
    simp only [idxFrom, List.mem_cons] at hp
    rcases hp with hp | hp
    · exact ⟨0, by simp, by simp [hp], by simp [hp]⟩
    · rcases ih hp with ⟨k, hk, h1, h2⟩
      exact ⟨k + 1, by simpa using hk, by omega, by simpa using h2⟩

theorem get_mem_idxFrom {α : Type} (n : Nat) (l : List α) (k : Nat)
    (h : k < l.length) : (n + k, l.get ⟨k, h⟩) ∈ idxFrom n l := by
  induction l generalizing n k with
  | nil => simp at h
  | cons a as ih =>
    cases k with
    | zero => simp [idxFrom]
    | succ k =>
      have := ih (n + 1) k (by simpa using h)
      simp only [idxFrom, List.mem_cons]
      right
      have harith : n + 1 + k = n + (k + 1) := by omega
      simpa [harith] using this

theorem get_mem_idxFrom_zero {α : Type} (l : List α) (k : Nat)
    (h : k < l.length) : (k, l.get ⟨k, h⟩) ∈ idxFrom 0 l := by
  have := get_mem_idxFrom 0 l k h
  simpa using this

theorem lookupA_updateA_self {α : Type} (l : List (String × α)) (key : String) (w : α)
    (h : (lookupA l key).isSome) : lookupA (updateA l key w) key = some w := by
  induction l with
  | nil => simp [lookupA] at h
  | cons kv rest ih =>
    obtain ⟨k, v⟩ := kv
    by_cases hk : k = key
    · simp [lookupA, updateA, hk]
    · simp only [lookupA, updateA, if_neg hk]
      exact ih (by simpa [lookupA, if_neg hk] using h)

theorem lookupA_append_self {α : Type} (l : List (String × α)) (key : String) (v : α)
    (h : lookupA l key = none) : lookupA (l ++ [(key, v)]) key = some v := by
  induction l with
  | nil => simp [lookupA]
  | cons kv rest ih =>
    obtain ⟨k, u⟩ := kv
    by_cases hk : k = key
    · simp [lookupA, hk] at h
    · simp only [List.cons_append, lookupA, if_neg hk] at h ⊢
      exact ih h

/-- Characterisation of the first pass on a resolvable batch: the
immediate replies are exactly the unknown-name errors in request order,
and the scheduled tasks are exactly the remaining requests in request
order. -/
theorem dispatchPass1_eq (modelId : String) (tools : List String)
    (l : List (Nat × ToolCallReq)) (hres : ∀ p ∈ l, resolvable tools p.2) :
    dispatchPass1 modelId tools l =
      .ok ((l.filter (fun p => isUnknownTool tools p.2)).map
            (fun p => createErrorResponse modelId p.2.id p.2.name (toolNotFoundMsg tools p.2.name)),
           l.filter (fun p => !(isUnknownTool tools p.2))) := by
  induction l with
  | nil => rfl
  | cons p rest ih =>
    obtain ⟨i, c⟩ := p
    have hrest : ∀ q ∈ rest, resolvable tools q.2 := fun q hq => hres q (List.mem_cons_of_mem _ hq)
    have hc : resolvable tools c := hres (i, c) (List.mem_cons_self _ _)
    by_cases hu : isUnknownTool tools c
    · simp [dispatchPass1, hu, ih hrest, List.filter_cons]
    · by_cases ht : c.name = "transfer_to_agent"
      · simp [dispatchPass1, hu, ht, ih hrest, List.filter_cons]
      · have hmem : c.name ∈ tools := by
          by_contra hms
          have hr : c.name ∈ reservedToolNames := by
            by_contra hrf
            exact hu (by simp [isUnknownTool, hms, hrf])
          have hcn : c.name = "call_agent" ∨ c.name = "transfer_to_agent" := by
            simpa [reservedToolNames] using hr
          rcases hcn with h1 | h1
          · exact hc ⟨h1, hms⟩
          · exact ht h1
        simp [dispatchPass1, hu, ht, hmem, ih hrest, List.filter_cons]

/-- Characterisation of the whole dispatch for a non-claude model on a
resolvable batch: no exception escapes and the reply list is the
unknown-name errors (request order) followed by the awaited task replies
(scheduling = request order). -/
theorem processToolsWithTimeout_eq (modelId : String) (tools : List String)
    (exec : Nat → ExecOutcome) (timeout : Nat) (tool_calls : List ToolCallReq)
    (hres : ∀ c ∈ tool_calls, resolvable tools c)
    (hnc : modelIsClaude modelId = false) :
    processToolsWithTimeout modelId tools exec timeout tool_calls =
      .ok (((idxFrom 0 tool_calls).filter (fun p => isUnknownTool tools p.2)).map
            (fun p => createErrorResponse modelId p.2.id p.2.name (toolNotFoundMsg tools p.2.name)) ++
          ((idxFrom 0 tool_calls).filter (fun p => !(isUnknownTool tools p.2))).map
            (taskResult modelId exec timeout)) := by
  have hres' : ∀ p ∈ idxFrom 0 tool_calls, resolvable tools p.2 := by
    intro p hp
    rcases mem_idxFrom hp with ⟨k, hk, _, h2⟩
    exact h2 ▸ hres _ (List.get_mem _ _ _)
  unfold processToolsWithTimeout
  rw [dispatchPass1_eq modelId tools _ hres']
  simp [hnc, dispatchPass2]

theorem shouldContinueRun_eq_false_of_test (turns_count : Nat) (md : RunMetadataM)
    (d c : String) (hge : md.max_turns ≤ turns_count) :
    shouldContinueRun turns_count md true d c = false := by
  unfold shouldContinueRun
  by_cases hdbg : md.enable_turn_debug ∧ isYesAnswer d = false
  · simp [hdbg]
  · simp [hdbg, hge]

theorem shouldContinueRun_true_elim (turns_count : Nat) (md : RunMetadataM)
    (is_test : Bool) (d c : String) (hge : md.max_turns ≤ turns_count)
    (h : shouldContinueRun turns_count md is_test d c = true) :
    is_test = false ∧ isYesAnswer c = true := by
  unfold shouldContinueRun at h
  by_cases hdbg : md.enable_turn_debug ∧ isYesAnswer d = false
  · simp [hdbg] at h
  · simp only [if_neg hdbg, if_pos hge] at h
    rcases Bool.eq_false_or_eq_true is_test with ht | ht
    · rw [ht] at h
      simp at h
    · rw [ht] at h
      simp only [Bool.false_eq_true, if_false] at h
      by_cases hcy : isYesAnswer c = false
      · simp [hcy] at h
      · exact ⟨ht, by simpa using hcy⟩

theorem execRunTurns_le_of_test (md : RunMetadataM) (is_test : Nat → Bool)
    (debugAns contAns : Nat → String) (outcome : Nat → TurnOutcome)
    (htest : ∀ t, is_test t = true) :
    ∀ fuel executed, execRunTurns md is_test debugAns contAns outcome fuel executed ≤
      max executed (md.max_turns - 1) := by
  intro fuel
  induction fuel with
  | zero => intro executed; simp [execRunTurns]
  | succ fuel ih =>
    intro executed
    by_cases hge : md.max_turns ≤ executed + 1
    · have hf := shouldContinueRun_eq_false_of_test (executed + 1) md
        (debugAns (executed + 1)) (contAns (executed + 1)) hge
      rw [execRunTurns, htest (executed + 1), hf]
      simp
    · by_cases hguard : shouldContinueRun (executed + 1) md (is_test (executed + 1))
          (debugAns (executed + 1)) (contAns (executed + 1)) = false
      · rw [execRunTurns, if_pos hguard]
        exact Nat.le_max_left _ _
      · rw [execRunTurns, if_neg hguard]
        cases houtcome : outcome (executed + 1) with
        | terminal =>
          simp only
          omega
        | continueRun =>
          simp only
          have := ih (executed + 1)
          omega

theorem execRunTurns_gt_elim (md : RunMetadataM) (is_test : Nat → Bool)
    (debugAns contAns : Nat → String) (outcome : Nat → TurnOutcome) :
    ∀ fuel executed,
      max executed md.max_turns < execRunTurns md is_test debugAns contAns outcome fuel executed →
      ∃ k, md.max_turns ≤ k ∧ is_test k = false ∧ isYesAnswer (contAns k) = true := by
  intro fuel
  induction fuel with
  | zero =>
    intro executed h
    rw [execRunTurns] at h
    omega
  | succ fuel ih =>
    intro executed h
    by_cases hguard :
        shouldContinueRun (executed + 1) md (is_test (executed + 1))
          (debugAns (executed + 1)) (contAns (executed + 1)) = false
    · rw [execRunTurns, if_pos hguard] at h
      omega
    · have hguard' : shouldContinueRun (executed + 1) md (is_test (executed + 1))
          (debugAns (executed + 1)) (contAns (executed + 1)) = true := by
        simpa using hguard
      rw [execRunTurns, if_neg hguard] at h
      by_cases hge : md.max_turns ≤ executed + 1
      · rcases shouldContinueRun_true_elim _ _ _ _ _ hge hguard' with ⟨h1, h2⟩
        exact ⟨executed + 1, hge, h1, h2⟩
      · cases houtcome : outcome (executed + 1) with
        | terminal =>
          rw [houtcome] at h
          simp only at h
          omega
        | continueRun =>
          rw [houtcome] at h
          simp only at h
          apply ih (executed + 1)
          omega

theorem length_filterMap_lt {α β : Type} (f : α → Option β) :
    ∀ (l : List α), (∃ a ∈ l, f a = none) → (l.filterMap f).length < l.length := by
  intro l
  induction l with
  | nil => rintro ⟨a, ha, _⟩; simp at ha
  | cons a as ih =>
    rintro ⟨b, hb, hfb⟩
    rcases List.mem_cons.mp hb with hb | hb
    · subst hb
      rw [List.filterMap_cons_none hfb]
      have := List.length_filterMap_le f as
      simp only [List.length_cons]
      omega
    · cases hfa : f a with
      | none =>
        rw [List.filterMap_cons_none hfa]
        have := List.length_filterMap_le f as
        simp only [List.length_cons]
        omega
      | some c =>
        rw [List.filterMap_cons_some hfa]
        have := ih ⟨b, hb, hfb⟩
        simp only [List.length_cons]
        omega

/-! ## Claim theorems -/

theorem toolMsgId_createErrorResponse (modelId i n c : String) :
    toolMsgId (createErrorResponse modelId i n c) = i := by
  unfold createErrorResponse
  split <;> rfl

theorem toolMsgId_createSuccessResponse (modelId i n c : String) :
    toolMsgId (createSuccessResponse modelId i n c) = i := by
  unfold createSuccessResponse
  split <;> rfl

theorem toolMsgId_taskResult (modelId : String) (exec : Nat → ExecOutcome)
    (timeout : Nat) (p : Nat × ToolCallReq) :
    toolMsgId (taskResult modelId exec timeout p) = p.2.id := by
  unfold taskResult
  cases exec p.1 <;>
    simp [toolMsgId_createErrorResponse, toolMsgId_createSuccessResponse]

/-- C1 (counterexample): on the batch `[edit#1, foo#2]` with only `edit`
registered, the dispatcher returns the replies with correlation ids
`["2", "1"]` — the unknown-name error is emitted during the first loop
and the executed reply during the second — so the returned batch is not
in the same order as the requests, refuting the claim as stated. -/
theorem dispatcher_counterexample_order :
    (processToolsWithTimeout "gpt-4o" ["edit"] (fun _ => .success "ok") 30
        [⟨"1", "edit"⟩, ⟨"2", "foo"⟩]).map (List.map toolMsgId) =
      .ok ["2", "1"] ∧
    (["2", "1"] : List String) ≠ ["1", "2"] := by
  constructor
  · rfl
  · decide

/-- C1 (amended): for a non-claude model id and a batch in which no
request is an unregistered `call_agent` (which would raise `KeyError`),
`Agent.process_tools_with_timeout` raises nothing and returns exactly N
replies for N requests, each correlated by invocation id to its request
(the reply ids are a permutation of the request ids); the replies are the
unknown-name errors in request order followed by the executed replies in
request order — which is the request order itself only when the whole
batch resolves uniformly. -/
theorem dispatcher_batch_correlated (modelId : String) (tools : List String)
    (exec : Nat → ExecOutcome) (timeout : Nat) (tool_calls : List ToolCallReq)
    (hres : ∀ c ∈ tool_calls, resolvable tools c)
    (hnc : modelIsClaude modelId = false) :
    ∃ l, processToolsWithTimeout modelId tools exec timeout tool_calls = .ok l ∧
      l = ((idxFrom 0 tool_calls).filter (fun p => isUnknownTool tools p.2)).map
            (fun p => createErrorResponse modelId p.2.id p.2.name (toolNotFoundMsg tools p.2.name)) ++
          ((idxFrom 0 tool_calls).filter (fun p => !(isUnknownTool tools p.2))).map
            (taskResult modelId exec timeout) ∧
      l.length = tool_calls.length ∧
      List.Perm (l.map toolMsgId) (tool_calls.map ToolCallReq.id) := by
  refine ⟨_, processToolsWithTimeout_eq modelId tools exec timeout tool_calls hres hnc,
    rfl, ?_, ?_⟩
  · have hperm := List.filter_append_perm (fun p => isUnknownTool tools p.2) (idxFrom 0 tool_calls)
    have hlen := hperm.length_eq
    simp only [List.length_append, List.length_map] at hlen ⊢
    rw [hlen, idxFrom_length]
  · have hids : ∀ g : List (Nat × ToolCallReq),
        ((g.filter (fun p => isUnknownTool tools p.2)).map
            (fun p => createErrorResponse modelId p.2.id p.2.name (toolNotFoundMsg tools p.2.name)) ++
          (g.filter (fun p => !(isUnknownTool tools p.2))).map
            (taskResult modelId exec timeout)).map toolMsgId =
        (g.filter (fun p => isUnknownTool tools p.2) ++
          g.filter (fun p => !(isUnknownTool tools p.2))).map (fun p => p.2.id) := by
      intro g
      simp only [List.map_append, List.map_map]
      congr 1
      · apply List.map_congr_left
        intro p _
        simp [Function.comp, toolMsgId_createErrorResponse]
      · apply List.map_congr_left
        intro p _
        simp [Function.comp, toolMsgId_taskResult]
    rw [hids]
    have hperm := (List.filter_append_perm (fun p => isUnknownTool tools p.2)
      (idxFrom 0 tool_calls)).map (fun p : Nat × ToolCallReq => p.2.id)
    refine hperm.trans ?_
    have : (idxFrom 0 tool_calls).map (fun p : Nat × ToolCallReq => p.2.id) =
        tool_calls.map ToolCallReq.id := by
      have h1 := idxFrom_map_snd 0 tool_calls
      calc (idxFrom 0 tool_calls).map (fun p : Nat × ToolCallReq => p.2.id)
          = ((idxFrom 0 tool_calls).map Prod.snd).map ToolCallReq.id := by
            rw [List.map_map]; rfl
        _ = tool_calls.map ToolCallReq.id := by rw [h1]
    rw [this]

/-- C1 (witness). -/
theorem dispatcher_batch_correlated_witness :
    ∃ l, processToolsWithTimeout "gpt-4o" ["edit"] (fun _ => .success "ok") 30
        [⟨"1", "edit"⟩, ⟨"2", "foo"⟩] = .ok l ∧
      l = (((idxFrom 0 [(⟨"1", "edit"⟩ : ToolCallReq), ⟨"2", "foo"⟩]).filter
              (fun p => isUnknownTool ["edit"] p.2)).map
            (fun p => createErrorResponse "gpt-4o" p.2.id p.2.name (toolNotFoundMsg ["edit"] p.2.name)) ++
          ((idxFrom 0 [(⟨"1", "edit"⟩ : ToolCallReq), ⟨"2", "foo"⟩]).filter
              (fun p => !(isUnknownTool ["edit"] p.2))).map
            (taskResult "gpt-4o" (fun _ => .success "ok") 30)) ∧
      l.length = ([(⟨"1", "edit"⟩ : ToolCallReq), ⟨"2", "foo"⟩] : List ToolCallReq).length ∧
      List.Perm (l.map toolMsgId)
        (([(⟨"1", "edit"⟩ : ToolCallReq), ⟨"2", "foo"⟩] : List ToolCallReq).map ToolCallReq.id) :=
  dispatcher_batch_correlated "gpt-4o" ["edit"] (fun _ => .success "ok") 30
    [⟨"1", "edit"⟩, ⟨"2", "foo"⟩] (by decide) (by decide)

/-- C5: a scheduled invocation whose await times out yields the error
reply whose content is exactly
`"Timeout while calling tool <name> after <timeout>s."` (`timeoutMsg`
interpolates the configured timeout), and every sibling invocation's
reply is computed from its own outcome alone: replacing the oracle by any
oracle agreeing outside position `i` leaves every other reply
unchanged. -/
theorem tool_timeout_isolated (modelId : String) (tools : List String)
    (exec exec' : Nat → ExecOutcome) (timeout : Nat) (tool_calls : List ToolCallReq)
    (i : Nat) (hi : i < tool_calls.length)
    (hres : ∀ c ∈ tool_calls, resolvable tools c)
    (hnc : modelIsClaude modelId = false)
    (hsched : isUnknownTool tools (tool_calls.get ⟨i, hi⟩) = false)
    (hto : exec i = .timeout)
    (hagree : ∀ j, j ≠ i → exec' j = exec j) :
    (∃ l, processToolsWithTimeout modelId tools exec timeout tool_calls = .ok l ∧
      createErrorResponse modelId (tool_calls.get ⟨i, hi⟩).id (tool_calls.get ⟨i, hi⟩).name
        (timeoutMsg (tool_calls.get ⟨i, hi⟩).name timeout) ∈ l) ∧
    (∀ p ∈ idxFrom 0 tool_calls, p.1 ≠ i →
      taskResult modelId exec timeout p = taskResult modelId exec' timeout p) := by
  constructor
  · refine ⟨_, processToolsWithTimeout_eq modelId tools exec timeout tool_calls hres hnc, ?_⟩
    apply List.mem_append_right
    apply List.mem_map.mpr
    refine ⟨(i, tool_calls.get ⟨i, hi⟩), ?_, ?_⟩
    · apply List.mem_filter.mpr
      exact ⟨get_mem_idxFrom_zero tool_calls i hi, by simpa using hsched⟩
    · simp [taskResult, hto]
  · intro p _ hne
    unfold taskResult
    rw [hagree p.1 hne]

/-- C5 (witness). -/
theorem tool_timeout_isolated_witness :
    (∃ l, processToolsWithTimeout "gpt-4o" ["edit"] (fun _ => .timeout) 30
        [⟨"1", "edit"⟩] = .ok l ∧
      createErrorResponse "gpt-4o"
        (([(⟨"1", "edit"⟩ : ToolCallReq)].get ⟨0, by decide⟩).id)
        (([(⟨"1", "edit"⟩ : ToolCallReq)].get ⟨0, by decide⟩).name)
        (timeoutMsg ([(⟨"1", "edit"⟩ : ToolCallReq)].get ⟨0, by decide⟩).name 30) ∈ l) ∧
    (∀ p ∈ idxFrom 0 [(⟨"1", "edit"⟩ : ToolCallReq)], p.1 ≠ 0 →
      taskResult "gpt-4o" (fun _ => .timeout) 30 p =
        taskResult "gpt-4o" (fun _ => .timeout) 30 p) :=
  tool_timeout_isolated "gpt-4o" ["edit"] (fun _ => .timeout) (fun _ => .timeout) 30
    [⟨"1", "edit"⟩] 0 (by decide) (by decide) (by decide) (by decide) rfl
    (fun _ _ => rfl)

/-- C6: a requested invocation whose name is neither registered nor a
reserved orchestration capability is never scheduled (it is absent from
the task list the first loop builds) and the dispatcher immediately
produces for it the error reply whose content `toolNotFoundMsg`
interpolates the registered capability names
(`f"Tool '{name}' not found. {tools.keys()}"`). -/
theorem unknown_tool_never_scheduled (modelId : String) (tools : List String)
    (exec : Nat → ExecOutcome) (timeout : Nat) (tool_calls : List ToolCallReq)
    (i : Nat) (hi : i < tool_calls.length)
    (hres : ∀ c ∈ tool_calls, resolvable tools c)
    (hnc : modelIsClaude modelId = false)
    (hunk : isUnknownTool tools (tool_calls.get ⟨i, hi⟩) = true) :
    (∀ errs tasks,
      dispatchPass1 modelId tools (idxFrom 0 tool_calls) = .ok (errs, tasks) →
      (i, tool_calls.get ⟨i, hi⟩) ∉ tasks) ∧
    (∃ l, processToolsWithTimeout modelId tools exec timeout tool_calls = .ok l ∧
      createErrorResponse modelId (tool_calls.get ⟨i, hi⟩).id (tool_calls.get ⟨i, hi⟩).name
        (toolNotFoundMsg tools (tool_calls.get ⟨i, hi⟩).name) ∈ l) := by
  have hres' : ∀ p ∈ idxFrom 0 tool_calls, resolvable tools p.2 := by
    intro p hp
    rcases mem_idxFrom hp with ⟨k, hk, _, h2⟩
    exact h2 ▸ hres _ (List.get_mem _ _ _)
  constructor
  · intro errs tasks hpass hmem
    rw [dispatchPass1_eq modelId tools _ hres'] at hpass
    have htasks : tasks = (idxFrom 0 tool_calls).filter (fun p => !(isUnknownTool tools p.2)) := by
      simp only [Except.ok.injEq, Prod.mk.injEq] at hpass
      exact hpass.2.symm
    rw [htasks] at hmem
    have hfalse := (List.mem_filter.mp hmem).2
    simp only [List.get_eq_getElem] at hunk
    simp [hunk] at hfalse
  · refine ⟨_, processToolsWithTimeout_eq modelId tools exec timeout tool_calls hres hnc, ?_⟩
    apply List.mem_append_left
    apply List.mem_map.mpr
    refine ⟨(i, tool_calls.get ⟨i, hi⟩), ?_, rfl⟩
    apply List.mem_filter.mpr
    exact ⟨get_mem_idxFrom_zero tool_calls i hi, by simpa using hunk⟩

/-- C6 (witness). -/
theorem unknown_tool_never_scheduled_witness :
    (∀ errs tasks,
      dispatchPass1 "gpt-4o" ["edit"] (idxFrom 0 [(⟨"7", "foo"⟩ : ToolCallReq)]) =
        .ok (errs, tasks) →
      (0, ([(⟨"7", "foo"⟩ : ToolCallReq)].get ⟨0, by decide⟩)) ∉ tasks) ∧
    (∃ l, processToolsWithTimeout "gpt-4o" ["edit"] (fun _ => .success "ok") 30
        [⟨"7", "foo"⟩] = .ok l ∧
      createErrorResponse "gpt-4o"
        (([(⟨"7", "foo"⟩ : ToolCallReq)].get ⟨0, by decide⟩).id)
        (([(⟨"7", "foo"⟩ : ToolCallReq)].get ⟨0, by decide⟩).name)
        (toolNotFoundMsg ["edit"] ([(⟨"7", "foo"⟩ : ToolCallReq)].get ⟨0, by decide⟩).name) ∈ l) :=
  unknown_tool_never_scheduled "gpt-4o" ["edit"] (fun _ => .success "ok") 30
    [⟨"7", "foo"⟩] 0 (by decide) (by decide) (by decide) (by decide)

/-- C2: the outer run loop executes a turn beyond the `max_turns` budget
only when the continuation prompt was answered affirmatively at some
turn at or past the budget by a non-test configuration; with every active
agent flagged `is_test` the executed turn count never exceeds
`max_turns` (the guard stops at `turns_count >= max_turns` without
prompting). -/
theorem run_turn_budget (md : RunMetadataM) (is_test : Nat → Bool)
    (debugAns contAns : Nat → String) (outcome : Nat → TurnOutcome) (fuel : Nat) :
    ((∀ t, is_test t = true) →
      execRunTurns md is_test debugAns contAns outcome fuel 0 ≤ md.max_turns) ∧
    (md.max_turns < execRunTurns md is_test debugAns contAns outcome fuel 0 →
      ∃ k, md.max_turns ≤ k ∧ is_test k = false ∧ isYesAnswer (contAns k) = true) := by
  constructor
  · intro htest
    have h := execRunTurns_le_of_test md is_test debugAns contAns outcome htest fuel 0
    omega
  · intro h
    apply execRunTurns_gt_elim md is_test debugAns contAns outcome fuel 0
    omega

/-- C2 (witness). -/
theorem run_turn_budget_witness :
    execRunTurns ⟨3, false⟩ (fun _ => true) (fun _ => "") (fun _ => "")
      (fun _ => .continueRun) 10 0 ≤ 3 :=
  (run_turn_budget ⟨3, false⟩ (fun _ => true) (fun _ => "") (fun _ => "")
    (fun _ => .continueRun) 10).1 (fun _ => rfl)

/-- C3: applying a `HandoffResult` sets `active_agent` to the agent under
`to_agent_id` and overwrites that agent's `conversation_context` with
exactly the participant set `{from_agent_id, to_agent_id}` (a hard reset
of arbitrary prior content, here the two-element list
`[from_agent_id, to_agent_id]`); hence applying the same handoff a second
time leaves `conversation_context` equal to what one application
produced. -/
theorem handoff_hard_reset_idempotent (st st' : ManagerHandoffState)
    (r : AgentHandoffResult) (h : handleHandoffResult st r = some st') :
    st'.active_agent = some r.to_agent_id ∧
    (∃ ag', lookupA st'.agents r.to_agent_id = some ag' ∧
      ag'.conversation_context.participants = [r.from_agent_id, r.to_agent_id] ∧
      ∀ x, x ∈ ag'.conversation_context.participants ↔
        (x = r.from_agent_id ∨ x = r.to_agent_id)) ∧
    (∀ st'', handleHandoffResult st' r = some st'' →
      ∀ ag₁ ag₂, lookupA st'.agents r.to_agent_id = some ag₁ →
        lookupA st''.agents r.to_agent_id = some ag₂ →
        ag₂.conversation_context = ag₁.conversation_context) := by
  unfold handleHandoffResult at h
  cases hlk : lookupA st.agents r.to_agent_id with
  | none => rw [hlk] at h; exact absurd h (by simp)
  | some ag =>
    rw [hlk] at h
    have hst' : st' =
        { agents := updateA st.agents r.to_agent_id
            ⟨⟨[r.from_agent_id, r.to_agent_id]⟩, ag.messages ++ ctxMessages r.context⟩,
          active_agent := some r.to_agent_id } := by
      simpa using h.symm
    subst hst'
    have hlk1 : lookupA (updateA st.agents r.to_agent_id
        ⟨⟨[r.from_agent_id, r.to_agent_id]⟩, ag.messages ++ ctxMessages r.context⟩)
        r.to_agent_id =
        some ⟨⟨[r.from_agent_id, r.to_agent_id]⟩, ag.messages ++ ctxMessages r.context⟩ :=
      lookupA_updateA_self st.agents r.to_agent_id _ (by simp [hlk])
    refine ⟨rfl, ⟨_, hlk1, rfl, by intro x; simp⟩, ?_⟩
    intro st'' h'' ag₁ ag₂ h₁ h₂
    unfold handleHandoffResult at h''
    simp only [hlk1] at h''
    have hst'' : st'' =
        { agents := updateA (updateA st.agents r.to_agent_id
              ⟨⟨[r.from_agent_id, r.to_agent_id]⟩, ag.messages ++ ctxMessages r.context⟩)
            r.to_agent_id
            ⟨⟨[r.from_agent_id, r.to_agent_id]⟩,
             (ag.messages ++ ctxMessages r.context) ++ ctxMessages r.context⟩,
          active_agent := some r.to_agent_id } := by
      simpa using h''.symm
    subst hst''
    simp only [hlk1, Option.some.injEq] at h₁
    have hlk2 := lookupA_updateA_self
      (updateA st.agents r.to_agent_id
        ⟨⟨[r.from_agent_id, r.to_agent_id]⟩, ag.messages ++ ctxMessages r.context⟩)
      r.to_agent_id
      (⟨⟨[r.from_agent_id, r.to_agent_id]⟩,
        (ag.messages ++ ctxMessages r.context) ++ ctxMessages r.context⟩ : AgentRt)
      (by simp [hlk1])
    simp only [hlk2, Option.some.injEq] at h₂
    rw [← h₁, ← h₂]

/-- C3 (witness). -/
theorem handoff_hard_reset_idempotent_witness :
    handleHandoffResult
        ⟨[("a", ⟨⟨["x"]⟩, []⟩), ("b", ⟨⟨["y", "z"]⟩, ["old"]⟩)], some "a"⟩
        ⟨"a", "b", .single "hi"⟩ =
      some ⟨[("a", ⟨⟨["x"]⟩, []⟩), ("b", ⟨⟨["a", "b"]⟩, ["old", "hi"]⟩)], some "b"⟩ ∧
    (⟨[("a", ⟨⟨["x"]⟩, []⟩), ("b", ⟨⟨["a", "b"]⟩, ["old", "hi"]⟩)], some "b"⟩ :
        ManagerHandoffState).active_agent = some "b" :=
  ⟨rfl,
   (handoff_hard_reset_idempotent
     ⟨[("a", ⟨⟨["x"]⟩, []⟩), ("b", ⟨⟨["y", "z"]⟩, ["old"]⟩)], some "a"⟩
     ⟨[("a", ⟨⟨["x"]⟩, []⟩), ("b", ⟨⟨["a", "b"]⟩, ["old", "hi"]⟩)], some "b"⟩
     ⟨"a", "b", .single "hi"⟩ rfl).1⟩

/-- C4: each of the three caught transport failures (connection failure,
rate limit, non-2xx status) leaves `send_completion_request` as a
`CompletionResponse` whose `response` is `None` and whose `error` is set
— data, not an exception — and the orchestrator step then appends that
response to the active agent's history and, for the primary agent,
returns it to the caller (no `raisedExn` outcome). -/
theorem transport_error_returned_as_data (model : String) (o : AnthTransportOutcome)
    (history : List RunHistEntry) (hterr : isTransportError o = true) :
    (anthropicSendCompletionRequest model o).response = none ∧
    (anthropicSendCompletionRequest model o).error.isSome = true ∧
    execRunStep history (agentRunResult (anthropicSendCompletionRequest model o)) true =
      (.returned (anthropicSendCompletionRequest model o),
       history ++ [RunHistEntry.assistantResponse (anthropicSendCompletionRequest model o)]) := by
  cases o with
  | success m => simp [isTransportError] at hterr
  | apiConnectionError c => exact ⟨rfl, rfl, rfl⟩
  | rateLimitError b s => exact ⟨rfl, rfl, rfl⟩
  | apiStatusError s b => exact ⟨rfl, rfl, rfl⟩

/-- C4 (witness). -/
theorem transport_error_returned_as_data_witness :
    (anthropicSendCompletionRequest "claude-3-5-sonnet"
        (.apiConnectionError "refused")).response = none ∧
    (anthropicSendCompletionRequest "claude-3-5-sonnet"
        (.apiConnectionError "refused")).error.isSome = true ∧
    execRunStep [] (agentRunResult (anthropicSendCompletionRequest "claude-3-5-sonnet"
        (.apiConnectionError "refused"))) true =
      (.returned (anthropicSendCompletionRequest "claude-3-5-sonnet"
          (.apiConnectionError "refused")),
       [] ++ [RunHistEntry.assistantResponse (anthropicSendCompletionRequest "claude-3-5-sonnet"
          (.apiConnectionError "refused"))]) :=
  transport_error_returned_as_data "claude-3-5-sonnet" (.apiConnectionError "refused") [] rfl

/-- C7 (counterexample): from `current_depth = max_depth = 8` with the
continuation prompt answered `"y"` (accepted) and the round-trip failing
with a transport error, the loop returns the error with
`total_depth` still at its initial value 5 — the policy accepted but
`total_depth` was not incremented, refuting "if the policy accepts,
current_depth is reset to 0 and total_depth is incremented before the
next round-trip". -/
theorem depth_policy_counterexample :
    isYesStrict "y" = true ∧
    openaiSendCompletionRequest (fun _ => .errorResp ⟨"boom", none⟩) (fun _ => "y") 3 0
        ⟨8, 5, 8, 0⟩ =
      (.errorResult ⟨"boom", none⟩, ⟨0, 5, 8, 0⟩) ∧
    (⟨0, 5, 8, 0⟩ : MetadataM).total_depth ≠ (⟨8, 5, 8, 0⟩ : MetadataM).total_depth + 1 := by
  refine ⟨rfl, rfl, by decide⟩

/-- C7 (amended): whenever `current_depth >= max_depth` the loop asks the
continuation policy before any further round-trip; a declining answer
returns the `None` sentinel (suspended, not an error) with the metadata
untouched; an accepting answer resets `current_depth` to 0 before the
round-trip, but the counters (`current_depth`, `total_depth`,
`request_count`) are incremented only after a successful round-trip — a
transport error immediately after acceptance returns with `total_depth`
(and `request_count`) unchanged, and a successful tool-free round-trip
returns with `current_depth = 1` and `total_depth` incremented once. -/
theorem depth_policy_amended (transport : Nat → ChatOutcome) (ans : Nat → String)
    (fuel step : Nat) (md : MetadataM) (hlim : md.max_depth ≤ md.current_depth) :
    (isYesStrict (ans step) = false →
      openaiSendCompletionRequest transport ans (fuel + 1) step md = (.noneSentinel, md)) ∧
    (∀ e, isYesStrict (ans step) = true → transport step = .errorResp e →
      openaiSendCompletionRequest transport ans (fuel + 1) step md =
        (.errorResult e, { md with current_depth := 0 })) ∧
    (isYesStrict (ans step) = true → transport step = .completion none →
      openaiSendCompletionRequest transport ans (fuel + 1) step md =
        (.completionResult none,
         { md with current_depth := 1, total_depth := md.total_depth + 1,
                   request_count := md.request_count + 1 })) := by
  refine ⟨fun hno => ?_, fun e hy htr => ?_, fun hy htr => ?_⟩
  · rw [openaiSendCompletionRequest, if_pos ⟨hlim, hno⟩]
  · rw [openaiSendCompletionRequest, if_neg (by simp [hy])]
    simp only [if_pos hlim, htr]
  · rw [openaiSendCompletionRequest, if_neg (by simp [hy])]
    simp only [if_pos hlim, htr]

/-- C7 (witness). -/
theorem depth_policy_amended_witness :
    openaiSendCompletionRequest (fun _ => .completion none) (fun _ => "n") 3 0 ⟨8, 5, 8, 0⟩ =
      (.noneSentinel, ⟨8, 5, 8, 0⟩) :=
  (depth_policy_amended (fun _ => .completion none) (fun _ => "n") 2 0 ⟨8, 5, 8, 0⟩
    (by decide)).1 (by decide)

/-- C8: in the legacy single-agent loop, a registered capability whose
invocation raises contributes no entry to the output batch — the
`except` branch of `process_tool_calls` builds an error string but never
appends it — so the output is strictly shorter than the input batch and
(with distinct invocation ids) contains no reply correlated to the
raising invocation. -/
theorem legacy_loop_drops_raised (tools : List String) (outcome : Nat → LegacyOutcome)
    (tool_calls : List ToolCallReq) (i : Nat) (msg : String)
    (hi : i < tool_calls.length)
    (hreg : (tool_calls.get ⟨i, hi⟩).name ∈ tools)
    (hraise : outcome i = .raises msg)
    (hids : (tool_calls.map ToolCallReq.id).Nodup) :
    (processToolCalls tools outcome tool_calls).length < tool_calls.length ∧
    ∀ m ∈ processToolCalls tools outcome tool_calls,
      toolMsgId m ≠ (tool_calls.get ⟨i, hi⟩).id := by
  have hnone : legacyEntry tools outcome (i, tool_calls.get ⟨i, hi⟩) = none := by
    simp only [legacyEntry]
    rw [if_pos (by simpa using hreg)]
    simp [hraise]
  constructor
  · unfold processToolCalls
    have h := length_filterMap_lt (legacyEntry tools outcome) (idxFrom 0 tool_calls)
      ⟨(i, tool_calls.get ⟨i, hi⟩), get_mem_idxFrom_zero tool_calls i hi, hnone⟩
    rwa [idxFrom_length] at h
  · intro m hm
    unfold processToolCalls at hm
    rcases List.mem_filterMap.mp hm with ⟨p, hp, hfp⟩
    rcases mem_idxFrom hp with ⟨k, hk, hp1, hp2⟩
    have hp1' : p.1 = k := by omega
    by_cases hname : p.2.name ∈ tools
    · cases hout : outcome p.1 with
      | raises s =>
        rw [legacyEntry, if_pos (by simpa using hname), hout] at hfp
        simp at hfp
      | returns v =>
        rw [legacyEntry, if_pos (by simpa using hname), hout] at hfp
        have hm_eq : m = .toolMessage p.2.id p.2.name v := by
          simpa using hfp.symm
        have hkne : k ≠ i := by
          intro he
          rw [hp1', he, hraise] at hout
          exact absurd hout (by simp)
        have hne_id : (tool_calls.get ⟨k, hk⟩).id ≠ (tool_calls.get ⟨i, hi⟩).id := by
          intro he
          apply hkne
          have hkk : (tool_calls.map ToolCallReq.id).get ⟨k, by simpa using hk⟩ =
              (tool_calls.map ToolCallReq.id).get ⟨i, by simpa using hi⟩ := by
            simpa using he
          have hfin := (List.Nodup.get_inj_iff hids).mp hkk
          simpa using hfin
        rw [hm_eq]
        simpa [toolMsgId, hp2] using hne_id
    · rw [legacyEntry, if_neg (by simpa using hname)] at hfp
      simp at hfp

/-- C8 (witness). -/
theorem legacy_loop_drops_raised_witness :
    (processToolCalls ["edit"] (fun _ => .raises "boom")
        [⟨"1", "edit"⟩, ⟨"2", "edit"⟩]).length <
      ([(⟨"1", "edit"⟩ : ToolCallReq), ⟨"2", "edit"⟩] : List ToolCallReq).length :=
  (legacy_loop_drops_raised ["edit"] (fun _ => .raises "boom")
    [⟨"1", "edit"⟩, ⟨"2", "edit"⟩] 0 "boom" (by decide) (by decide) rfl (by decide)).1

/-- C9: `register_agent` with an already-registered `config.id` returns
the previously stored agent and leaves the registry association list and
the `primary_agent` pointer untouched (the early return precedes both the
store and the primary update); consequently registering the same config
twice produces the same agent and the same state as registering it
once. -/
theorem register_agent_idempotent (st : RegistryState) (config : AgentConfigM) (a : AgentObj)
    (h : lookupA st.agents config.id = some a) :
    registerAgent st config = (a, st) ∧
    ∀ st₀ : RegistryState,
      registerAgent (registerAgent st₀ config).2 config =
        ((registerAgent st₀ config).1, (registerAgent st₀ config).2) := by
  constructor
  · unfold registerAgent
    rw [h]
  · intro st₀
    unfold registerAgent
    cases h₀ : lookupA st₀.agents config.id with
    | some b => simp [h₀]
    | none =>
      simp only [h₀]
      simp [lookupA_append_self st₀.agents config.id (⟨config.id, config⟩ : AgentObj) h₀]

/-- C9 (witness). -/
theorem register_agent_idempotent_witness :
    registerAgent
        ⟨[("a", ⟨"a", ⟨"a", "A", true, false⟩⟩)], none⟩ ⟨"a", "A", true, false⟩ =
      (⟨"a", ⟨"a", "A", true, false⟩⟩,
       ⟨[("a", ⟨"a", ⟨"a", "A", true, false⟩⟩)], none⟩) :=
  (register_agent_idempotent ⟨[("a", ⟨"a", ⟨"a", "A", true, false⟩⟩)], none⟩
    ⟨"a", "A", true, false⟩ ⟨"a", ⟨"a", "A", true, false⟩⟩ rfl).1

/-- C10: on a `CompletionResponse` holding no provider response and an
`ErrorResponse` error, all three public accessors are total: `get_text`
returns the stringified error, `get_tool_calls` returns `None`, and
`get_usage` returns `None` — none of them reaches the
`InvalidResponseTypeError` raise. -/
theorem error_response_accessors_total (r : CompletionResponseM) (e : ErrorResponse)
    (hresp : r.response = none) (herr : r.error = some e) :
    getText r = .ok (some (pyStrOfError (some e))) ∧
    getToolCalls r = .ok none ∧
    getUsage r = .ok none := by
  obtain ⟨model, resp, err⟩ := r
  simp only at hresp herr
  subst hresp
  subst herr
  exact ⟨rfl, rfl, rfl⟩

/-- C10 (witness). -/
theorem error_response_accessors_total_witness :
    getText ⟨"gpt-4o", none, some ⟨"boom", none⟩⟩ =
      .ok (some (pyStrOfError (some ⟨"boom", none⟩))) ∧
    getToolCalls ⟨"gpt-4o", none, some ⟨"boom", none⟩⟩ = .ok none ∧
    getUsage ⟨"gpt-4o", none, some ⟨"boom", none⟩⟩ = .ok none :=
  error_response_accessors_total ⟨"gpt-4o", none, some ⟨"boom", none⟩⟩ ⟨"boom", none⟩ rfl rfl

end Cue
